import Mathlib

/-!
# Verification of the Code-Archaeology repository-analysis engine

This file gives a shallow embedding, in Lean 4, of the pure computational
core of the repository: the Python-string helpers the analyzers rely on,
the symbol extractor (`ast_analyzer.py`), the complexity classifier
(`complexity_analyzer.py`), the dependency-graph builder
(`dependency_analyzer.py`), the keyword-matching logic of the learning-path
and entry-point tools, and the git-history miner (`git_analyzer.py`) with
the external `git` subprocess abstracted as an oracle.

Strings are modelled as `List Char`; Python `dict`s as association lists
with pairwise-distinct keys; the `networkx` directed graph as a
`Finset (Str × Str)` of edges (which, like `networkx.DiGraph.add_edge`,
deduplicates repeated insertions and admits self-loops).
-/

abbrev Str := List Char

/-- Whitespace characters stripped by Python `str.strip()` (ASCII range). -/
def isPySpace (c : Char) : Bool :=
  c = ' ' || c = '\t' || c = '\n' || c = '\r' || c = '\x0b' || c = '\x0c'

/-- Python `s.strip()`: remove leading and trailing whitespace. -/
def pyStrip (s : Str) : Str :=
  ((s.dropWhile isPySpace).reverse.dropWhile isPySpace).reverse

/-- Python `s.startswith(p)`. -/
def startsWithL (p s : Str) : Bool :=
  p.isPrefixOf s

/-- Python `p in s` (substring containment). -/
def isSubstr (p : Str) : Str → Bool
  | [] => p.isEmpty
  | c :: rest => p.isPrefixOf (c :: rest) || isSubstr p rest

/-- Python `s.lstrip("./")`: drop every leading `.` or `/` character. -/
def lstripDotSlash (s : Str) : Str :=
  s.dropWhile (fun c => c = '.' || c = '/')

/-- Python `s.lower()` (ASCII letters). -/
def pyLower (s : Str) : Str :=
  s.map Char.toLower

/-- Python `s.strip(chars)`: drop the characters of `cs` from both ends. -/
def stripCharsOf (cs : Str) (s : Str) : Str :=
  ((s.dropWhile cs.contains).reverse.dropWhile cs.contains).reverse

/-- Python `s.split(sep)` for a one-character separator: keeps
empty segments, and the empty string splits to `[""]`. -/
def splitOnCharL (sep : Char) : Str → List Str
  | [] => [[]]
  | c :: rest =>
    let r := splitOnCharL sep rest
    if c = sep then [] :: r
    else
      match r with
      | [] => [[c]]
      | h :: t => (c :: h) :: t

/-- Helper for `pySplitWs`: accumulates the current (reversed) word. -/
def pySplitWsGo : Str → Str → List Str
  | [], cur => if cur.isEmpty then [] else [cur.reverse]
  | c :: rest, cur =>
    if isPySpace c then
      if cur.isEmpty then pySplitWsGo rest []
      else cur.reverse :: pySplitWsGo rest []
    else pySplitWsGo rest (c :: cur)

/-- Python `s.split()` with no argument: split on whitespace runs,
producing no empty words. -/
def pySplitWs (s : Str) : List Str :=
  pySplitWsGo s []

/-- Non-overlapping left-to-right replacement, fuel-indexed so the
recursion is structural (fuel `s.length` suffices: each step consumes at
least one character when the pattern is nonempty). -/
def replaceAllGo (pat rep : Str) : Nat → Str → Str
  | 0, s => s
  | _ + 1, [] => []
  | fuel + 1, c :: rest =>
    if pat ≠ [] ∧ pat.isPrefixOf (c :: rest) then
      rep ++ replaceAllGo pat rep fuel ((c :: rest).drop pat.length)
    else
      c :: replaceAllGo pat rep fuel rest

/-- Python `s.replace(pat, rep)` for nonempty `pat`. -/
def replaceAll (pat rep s : Str) : Str :=
  replaceAllGo pat rep s.length s

/-!
## Complexity analyzer (`onboarding_agent/analyzers/complexity_analyzer.py`)

`ComplexityAnalyzer` holds the class constants `SIMPLE = 5`, `MODERATE = 10`
and `COMPLEX = 20` and two pure helpers, `_classify_complexity` and
`_determine_risk_level`.  Cyclomatic complexity is an `int`; the average
complexity and the maintainability index are Python floats used only in
order comparisons against integer constants, so they are embedded as `ℚ`.
-/

def ComplexityAnalyzer.SIMPLE : Int := 5

def ComplexityAnalyzer.MODERATE : Int := 10

def ComplexityAnalyzer.COMPLEX : Int := 20

/-- Embeds `ComplexityAnalyzer._classify_complexity` (lines 121-137). -/
def classifyComplexity (complexity : Int) : String :=
  if complexity ≤ ComplexityAnalyzer.SIMPLE then "simple"
  else if complexity ≤ ComplexityAnalyzer.MODERATE then "moderate"
  else if complexity ≤ ComplexityAnalyzer.COMPLEX then "complex"
  else "very_complex"

/-- Embeds `ComplexityAnalyzer._determine_risk_level` (lines 139-159): an ordered
if/elif chain over the average complexity and the maintainability index. -/
def determineRiskLevel (avgComplexity miIndex : ℚ) : String :=
  if avgComplexity > (ComplexityAnalyzer.COMPLEX : ℚ) ∨ miIndex < 10 then "high"
  else if avgComplexity > (ComplexityAnalyzer.MODERATE : ℚ) ∨ miIndex < 20 then "medium"
  else "low"

/-- Ordinal rank of a classification band, `simple < moderate < complex <
very_complex`; used to state monotonicity. -/
def classificationRank (band : String) : Nat :=
  if band = "simple" then 0
  else if band = "moderate" then 1
  else if band = "complex" then 2
  else 3

example : classifyComplexity 3 = "simple" := by decide
example : classifyComplexity 25 = "very_complex" := by decide
example : determineRiskLevel 8 8 = "high" := by decide
example : determineRiskLevel 8 15 = "medium" := by decide
example : determineRiskLevel 3 50 = "low" := by decide

/-- Rank of the classification, expressed through the thresholds. -/
theorem rank_classify_eq (c : Int) :
    classificationRank (classifyComplexity c) =
      if c ≤ 5 then 0 else if c ≤ 10 then 1 else if c ≤ 20 then 2 else 3 := by
  unfold classifyComplexity ComplexityAnalyzer.SIMPLE ComplexityAnalyzer.MODERATE
    ComplexityAnalyzer.COMPLEX
  split_ifs <;> rfl

/-- C3: the risk level is computed as an ordered first-match chain —
`high` iff avg > 20 or MI < 10; `medium` iff neither high-condition holds
and (avg > 10 or MI < 20); otherwise `low`.  `determineRiskLevel` is a
Lean function of exactly the two arguments, so purity-determinism holds
by construction. -/
theorem risk_level_first_match_chain (a m : ℚ) :
    (determineRiskLevel a m = "high" ↔ a > 20 ∨ m < 10) ∧
    (determineRiskLevel a m = "medium" ↔ ¬(a > 20 ∨ m < 10) ∧ (a > 10 ∨ m < 20)) ∧
    (determineRiskLevel a m = "low" ↔
      ¬(a > 20 ∨ m < 10) ∧ ¬(a > 10 ∨ m < 20)) := by
  have h20 : ((ComplexityAnalyzer.COMPLEX : Int) : ℚ) = 20 := by
    norm_num [ComplexityAnalyzer.COMPLEX]
  have h10 : ((ComplexityAnalyzer.MODERATE : Int) : ℚ) = 10 := by
    norm_num [ComplexityAnalyzer.MODERATE]
  unfold determineRiskLevel
  rw [h20, h10]
  split_ifs with h1 h2
  · refine ⟨⟨fun _ => h1, fun _ => rfl⟩, ⟨fun hc => absurd hc (by decide), ?_⟩,
      ⟨fun hc => absurd hc (by decide), ?_⟩⟩
    · rintro ⟨hn, -⟩; exact absurd h1 hn
    · rintro ⟨hn, -⟩; exact absurd h1 hn
  · refine ⟨⟨fun hc => absurd hc (by decide), fun hh => absurd hh h1⟩,
      ⟨fun _ => ⟨h1, h2⟩, fun _ => rfl⟩,
      ⟨fun hc => absurd hc (by decide), ?_⟩⟩
    rintro ⟨-, hn⟩; exact absurd h2 hn
  · exact ⟨⟨fun hc => absurd hc (by decide), fun hh => absurd hh h1⟩,
      ⟨fun hc => absurd hc (by decide), fun hm => absurd hm.2 h2⟩,
      ⟨fun _ => ⟨h1, h2⟩, fun _ => rfl⟩⟩

/-- C4: the fixed thresholds 5/10/20 determine the classification band,
and classification is monotone: a smaller complexity never lands in a
higher band. -/
theorem classify_thresholds_monotone (c1 c2 : Int) (h : c1 < c2) :
    classifyComplexity c1 =
      (if c1 ≤ 5 then "simple" else if c1 ≤ 10 then "moderate"
       else if c1 ≤ 20 then "complex" else "very_complex") ∧
    classificationRank (classifyComplexity c1) ≤
      classificationRank (classifyComplexity c2) := by
  constructor
  · unfold classifyComplexity ComplexityAnalyzer.SIMPLE ComplexityAnalyzer.MODERATE
      ComplexityAnalyzer.COMPLEX
    rfl
  · rw [rank_classify_eq, rank_classify_eq]
    split_ifs <;> omega

/-- Witness for C4 at the concrete pair (3, 12). -/
theorem classify_thresholds_monotone_witness :
    (3 : Int) < 12 ∧
    classifyComplexity 3 =
      (if (3 : Int) ≤ 5 then "simple" else if (3 : Int) ≤ 10 then "moderate"
       else if (3 : Int) ≤ 20 then "complex" else "very_complex") ∧
    classificationRank (classifyComplexity 3) ≤
      classificationRank (classifyComplexity 12) :=
  ⟨by norm_num, classify_thresholds_monotone 3 12 (by norm_num)⟩

/-!
## AST analyzer (`onboarding_agent/analyzers/ast_analyzer.py`)

`analyze_file` splits the decoded content on `"\n"`, sets `total_lines`
to the number of lines and `code_lines` to the number of lines whose
stripped form is nonempty and does not start with `#` (the same heuristic
for every supported language), then runs the per-language line-pattern
symbol extraction.
-/

/-- One extracted symbol (`CodeSymbol` dataclass); the fields the
per-line extraction fills. -/
structure CodeSymbol where
  name : Str
  symType : String
  lineStart : Nat
  lineEnd : Nat
  isPublic : Bool
deriving DecidableEq, Repr

/-- The lines of a file: Python `content.split("\n")`. -/
def fileLines (content : Str) : List Str :=
  splitOnCharL '\n' content

/-- The count `total_lines = len(lines)`. -/
def totalLines (content : Str) : Nat :=
  (fileLines content).length

/-- The per-line predicate of the `code_lines` sum:
`line.strip() and not line.strip().startswith("#")`. -/
def isCodeLine (line : Str) : Bool :=
  !(pyStrip line).isEmpty && !(startsWithL "#".toList (pyStrip line))

/-- The count `code_lines = sum(1 for line in lines if ...)`. -/
def codeLines (content : Str) : Nat :=
  (fileLines content).countP isCodeLine

/-- Name extraction for a `class ` line:
`stripped.split("(")[0].replace("class ", "").replace(":", "").strip()`. -/
def classNameOfStripped (stripped : Str) : Str :=
  pyStrip (replaceAll ":".toList []
    (replaceAll "class ".toList [] (stripped.takeWhile (fun c => c ≠ '('))))

/-- Name extraction for a `def ` line:
`stripped.split("(")[0].replace("def ", "").strip()`. -/
def defNameOfStripped (stripped : Str) : Str :=
  pyStrip (replaceAll "def ".toList [] (stripped.takeWhile (fun c => c ≠ '(')))

/-- The body of the loop of `_extract_python_symbols` (lines 131-181) for
the line at 0-based index `i`: a `class ` line yields a class symbol, a
`def ` line yields a function symbol, turned into a method exactly when
the raw line starts with four spaces or a tab. -/
def pySymbolOfLine (i : Nat) (line : Str) : Option CodeSymbol :=
  let stripped := pyStrip line
  if startsWithL "class ".toList stripped then
    let name := classNameOfStripped stripped
    some ⟨name, "class", i + 1, i + 1, !(startsWithL "_".toList name)⟩
  else if startsWithL "def ".toList stripped then
    let name := defNameOfStripped stripped
    let symType :=
      if startsWithL "    ".toList line || startsWithL "\t".toList line
      then "method" else "function"
    some ⟨name, symType, i + 1, i + 1, !(startsWithL "_".toList name)⟩
  else none

/-- Embeds `ASTAnalyzer._extract_python_symbols`: scan the enumerated lines. -/
def extractPythonSymbols (lines : List Str) : List CodeSymbol :=
  lines.enum.filterMap fun p => pySymbolOfLine p.1 p.2

example : extractPythonSymbols ["def foo():".toList, "    def _bar(x):".toList]
    = [⟨"foo".toList, "function", 1, 1, true⟩,
       ⟨"_bar".toList, "method", 2, 2, false⟩] := by decide

example : extractPythonSymbols ["class Cow(Animal):".toList]
    = [⟨"Cow".toList, "class", 1, 1, true⟩] := by decide

example : codeLines "x = 1\n# c\n\n// js".toList = 2 := by decide

/-- A list whose `startsWithL (a :: p)` check succeeds begins with `a`. -/
theorem exists_cons_of_startsWith {a : Char} {p t : Str}
    (h : startsWithL (a :: p) t = true) : ∃ r, t = a :: r := by
  cases t with
  | nil => exact absurd h (by simp [startsWithL, List.isPrefixOf])
  | cons c rest =>
    simp only [startsWithL, List.isPrefixOf, Bool.and_eq_true, beq_iff_eq] at h
    exact ⟨rest, by rw [h.1]⟩

/-- A stripped line that starts with `def ` does not start with `class `. -/
theorem not_class_of_def {t : Str}
    (h : startsWithL "def ".toList t = true) :
    startsWithL "class ".toList t = false := by
  have hd : "def ".toList = 'd' :: "ef ".toList := rfl
  rw [hd] at h
  obtain ⟨r, hr⟩ := exists_cons_of_startsWith h
  subst hr
  have hc : "class ".toList = 'c' :: "lass ".toList := rfl
  rw [hc]
  simp [startsWithL, List.isPrefixOf]

/-- Successful indexing puts the indexed pair in the enumeration. -/
theorem mem_enumFrom_of_get? {α : Type} :
    ∀ (l : List α) (n i : Nat) (a : α), l.get? i = some a →
      (n + i, a) ∈ l.enumFrom n := by
  intro l
  induction l with
  | nil => intro n i a h; simp at h
  | cons x t ih =>
    intro n i a h
    cases i with
    | zero =>
      simp only [List.get?] at h
      cases h
      simp [List.enumFrom]
    | succ j =>
      simp only [List.get?] at h
      have := ih (n + 1) j a h
      have harith : n + (j + 1) = (n + 1) + j := by omega
      rw [harith]
      simp [List.enumFrom]
      right
      exact this

/-- Successful indexing puts the indexed pair in `List.enum`. -/
theorem mem_enum_of_get? {α : Type} (l : List α) (i : Nat) (a : α)
    (h : l.get? i = some a) : (i, a) ∈ l.enum := by
  have := mem_enumFrom_of_get? l 0 i a h
  simpa [List.enum] using this

/-- C9 (amended view of the counting code): `code_lines` counts exactly
the lines whose stripped form is nonempty and does not start with `#`,
so `code_lines ≤ total_lines`; the heuristic is language-independent —
a JavaScript `//` comment line satisfies the predicate and is counted as
code. -/
theorem code_lines_le_total_lines (content : Str) :
    codeLines content = (fileLines content).countP
      (fun line => !(pyStrip line).isEmpty &&
        !(startsWithL "#".toList (pyStrip line))) ∧
    codeLines content ≤ totalLines content ∧
    isCodeLine ("// comment".toList) = true := by
  refine ⟨rfl, ?_, by decide⟩
  exact List.countP_le_length _

/-- C6 (amended): a line whose stripped form starts with `def ` yields a
symbol at that line, typed `method` exactly when the raw line starts with
four spaces or a tab (and `function` otherwise), public iff its name does
not start with an underscore. -/
theorem python_def_line_symbol (lines : List Str) (i : Nat) (line : Str)
    (hget : lines.get? i = some line)
    (hdef : startsWithL "def ".toList (pyStrip line) = true) :
    ∃ s ∈ extractPythonSymbols lines,
      s.lineStart = i + 1 ∧
      s.symType = (if startsWithL "    ".toList line || startsWithL "\t".toList line
                   then "method" else "function") ∧
      (s.symType = "function" ∨ s.symType = "method") ∧
      (s.isPublic = true ↔ startsWithL "_".toList s.name = false) := by
  have hnc := not_class_of_def hdef
  have hsym : pySymbolOfLine i line =
      some ⟨defNameOfStripped (pyStrip line),
            (if startsWithL "    ".toList line || startsWithL "\t".toList line
             then "method" else "function"),
            i + 1, i + 1,
            !(startsWithL "_".toList (defNameOfStripped (pyStrip line)))⟩ := by
    have hnc' : startsWithL ['c', 'l', 'a', 's', 's', ' '] (pyStrip line) = false := hnc
    have hdef' : startsWithL ['d', 'e', 'f', ' '] (pyStrip line) = true := hdef
    simp [pySymbolOfLine, hnc', hdef']
  refine ⟨_, List.mem_filterMap.mpr ⟨(i, line), mem_enum_of_get? lines i line hget, hsym⟩,
    rfl, rfl, ?_, ?_⟩
  · dsimp only
    split
    · right; rfl
    · left; rfl
  · dsimp only
    simp

/-- Witness for C6 at the concrete one-line file `def g():`. -/
theorem python_def_line_symbol_witness :
    ∃ s ∈ extractPythonSymbols ["def g():".toList],
      s.lineStart = 0 + 1 ∧
      s.symType = (if startsWithL "    ".toList "def g():".toList ||
                      startsWithL "\t".toList "def g():".toList
                   then "method" else "function") ∧
      (s.symType = "function" ∨ s.symType = "method") ∧
      (s.isPublic = true ↔ startsWithL "_".toList s.name = false) :=
  python_def_line_symbol ["def g():".toList] 0 "def g():".toList rfl (by decide)

/-- C6 counterexample: the line `" def f():"` has leading indentation
(its first character is a space, its stripped form starts with `def `),
yet the extracted symbol is a `function`, not a `method` — the code only
reclassifies on a four-space or tab start. -/
theorem python_def_one_space_counterexample :
    (" def f():").toList.head? = some ' ' ∧
    startsWithL "def ".toList (pyStrip (" def f():").toList) = true ∧
    (extractPythonSymbols [(" def f():").toList]).map (fun s => s.symType)
      = ["function"] := by decide

/-!
## Dependency analyzer (`code_archaeology/analyzers/dependency_analyzer.py`)

`build_dependency_graph` runs two passes over the file-analysis map: the
first creates one graph node per key (and a `ModuleInfo` whose
`exported_symbols` are the analysis' symbol names), the second resolves
every import string of every module with `_resolve_import` and adds an
edge to the `networkx.DiGraph` when the resolution is nonempty and among
the modules; the final loop stores `out_degree`/`in_degree` into
`dependency_count`/`dependent_count`.  The map is an association list
with pairwise-distinct keys (a Python dict); the digraph is a
`Finset` of edges, which deduplicates like `DiGraph.add_edge` and admits
self-loops.
-/

/-- The per-file analysis fields `build_dependency_graph` reads. -/
structure FileAnalysisE where
  imports : List Str
  symbolNames : List Str
deriving DecidableEq, Repr

abbrev AnalysisMap := List (Str × FileAnalysisE)

/-- The keys of the file-analysis map (`file_analyses.keys()`). -/
def mapKeys (m : AnalysisMap) : List Str :=
  m.map Prod.fst

/-- Python-style candidate: `import_path.replace(".", "/") + ".py"`. -/
def pythonPathOf (imp : Str) : Str :=
  imp.map (fun c => if c = '.' then '/' else c) ++ ".py".toList

/-- JavaScript-style candidate: `import_path.lstrip("./") + ".js"`. -/
def jsPathOf (imp : Str) : Str :=
  lstripDotSlash imp ++ ".js".toList

/-- TypeScript-style candidate: `import_path.lstrip("./") + ".ts"`. -/
def tsPathOf (imp : Str) : Str :=
  lstripDotSlash imp ++ ".ts".toList

/-- The test `import_path.startswith("./") or import_path.startswith("../")`. -/
def isRelativeImport (imp : Str) : Bool :=
  startsWithL "./".toList imp || startsWithL "../".toList imp

/-- Embeds `DependencyAnalyzer._resolve_import` (lines 81-109): try the
candidate paths in order and return the first that is an available file,
or the empty string. -/
def resolveImport (importPath : Str) (availableFiles : List Str) : Str :=
  let potentialPaths := [pythonPathOf importPath] ++
    (if isRelativeImport importPath
     then [jsPathOf importPath, tsPathOf importPath] else [])
  (potentialPaths.find? fun p => availableFiles.contains p).getD []

/-- The distinct-preserving list of resolved targets of one module: the
second pass keeps `resolved` when it is truthy (nonempty) and a key of
`self.modules`. -/
def resolvedTargets (keys : List Str) (a : FileAnalysisE) : List Str :=
  (a.imports.map fun imp => resolveImport imp keys).filter
    fun r => !r.isEmpty && keys.contains r

/-- The node set of the built graph: one node per key (first pass). -/
def graphNodes (m : AnalysisMap) : Finset Str :=
  (mapKeys m).toFinset

/-- The edge set of the built graph (second pass). -/
def graphEdges (m : AnalysisMap) : Finset (Str × Str) :=
  (m.flatMap fun p => (resolvedTargets (mapKeys m) p.2).map fun r => (p.1, r)).toFinset

/-- The field `dependency_count` = `out_degree` of the built digraph. -/
def dependencyCount (m : AnalysisMap) (f : Str) : Nat :=
  ((graphEdges m).filter fun e => e.1 = f).card

/-- The field `dependent_count` = `in_degree` of the built digraph. -/
def dependentCount (m : AnalysisMap) (f : Str) : Nat :=
  ((graphEdges m).filter fun e => e.2 = f).card

/-- Does node `g` have an import that the second pass resolves to `f`? -/
def importsResolveTo (m : AnalysisMap) (g f : Str) : Bool :=
  m.any fun p => p.1 == g && (resolvedTargets (mapKeys m) p.2).contains f

example :
    resolveImport "src.utils.helpers".toList ["src/utils/helpers.py".toList]
      = "src/utils/helpers.py".toList := by decide

example :
    resolveImport "./utils/helpers".toList ["utils/helpers.ts".toList]
      = "utils/helpers.ts".toList := by decide

example : resolveImport "missing".toList ["a.py".toList] = [] := by decide

/-- Edge-set membership, unfolded to the second pass of the build. -/
theorem mem_graphEdges {m : AnalysisMap} {e : Str × Str} :
    e ∈ graphEdges m ↔
      ∃ p ∈ m, e.1 = p.1 ∧ e.2 ∈ resolvedTargets (mapKeys m) p.2 := by
  unfold graphEdges
  rw [List.mem_toFinset, List.mem_flatMap]
  constructor
  · rintro ⟨p, hp, hmem⟩
    rcases List.mem_map.mp hmem with ⟨r, hr, rfl⟩
    exact ⟨p, hp, rfl, hr⟩
  · rintro ⟨p, hp, h1, h2⟩
    exact ⟨p, hp, List.mem_map.mpr ⟨e.2, h2, by cases e; simp_all⟩⟩

/-- A resolved target kept by the second pass is nonempty and a key. -/
theorem resolvedTargets_sound {keys : List Str} {a : FileAnalysisE} {r : Str}
    (hr : r ∈ resolvedTargets keys a) : r ≠ [] ∧ r ∈ keys := by
  unfold resolvedTargets at hr
  rcases List.mem_filter.mp hr with ⟨-, hcond⟩
  simp only [Bool.and_eq_true] at hcond
  refine ⟨?_, ?_⟩
  · simpa using hcond.1
  · simpa using hcond.2

/-- Every edge's source is a node. -/
theorem edge_fst_mem {m : AnalysisMap} {e : Str × Str}
    (he : e ∈ graphEdges m) : e.1 ∈ graphNodes m := by
  rcases mem_graphEdges.mp he with ⟨p, hp, h1, -⟩
  unfold graphNodes mapKeys
  rw [List.mem_toFinset]
  exact h1 ▸ List.mem_map.mpr ⟨p, hp, rfl⟩

/-- Every edge's target is a node. -/
theorem edge_snd_mem {m : AnalysisMap} {e : Str × Str}
    (he : e ∈ graphEdges m) : e.2 ∈ graphNodes m := by
  rcases mem_graphEdges.mp he with ⟨p, hp, -, h2⟩
  unfold graphNodes
  rw [List.mem_toFinset]
  exact (resolvedTargets_sound h2).2

/-- In a map with pairwise-distinct keys, a key determines its analysis. -/
theorem assoc_val_eq {m : AnalysisMap} (hnd : (m.map Prod.fst).Nodup)
    {f : Str} {a b : FileAnalysisE} (ha : (f, a) ∈ m) (hb : (f, b) ∈ m) :
    a = b := by
  induction m with
  | nil => cases ha
  | cons p t ih =>
    rw [List.map_cons, List.nodup_cons] at hnd
    rcases List.mem_cons.mp ha with ha1 | ha1 <;>
      rcases List.mem_cons.mp hb with hb1 | hb1
    · rw [← ha1] at hb1
      exact ((Prod.mk.injEq f b f a ▸ hb1 : f = f ∧ b = a).2).symm
    · exfalso
      exact hnd.1 (List.mem_map.mpr ⟨(f, b), hb1, by rw [← ha1]⟩)
    · exfalso
      exact hnd.1 (List.mem_map.mpr ⟨(f, a), ha1, by rw [← hb1]⟩)
    · exact ih hnd.2 ha1 hb1

/-- The out-edges of `f` are exactly `f` paired with its resolved
targets (distinct keys make `f`'s entry unique). -/
theorem edges_from_eq {m : AnalysisMap} (hnd : (m.map Prod.fst).Nodup)
    {f : Str} {a : FileAnalysisE} (hfa : (f, a) ∈ m) :
    (graphEdges m).filter (fun e => e.1 = f) =
      (resolvedTargets (mapKeys m) a).toFinset.image (fun r => (f, r)) := by
  ext e
  rw [Finset.mem_filter, mem_graphEdges, Finset.mem_image]
  constructor
  · rintro ⟨⟨p, hp, h1, h2⟩, hf⟩
    have hpf : p.1 = f := by rw [← h1, hf]
    have hpa : p.2 = a := by
      refine assoc_val_eq hnd ?_ hfa
      rw [← hpf]; exact hp
    refine ⟨e.2, List.mem_toFinset.mpr (hpa ▸ h2), ?_⟩
    cases e; simp_all
  · rintro ⟨r, hr, rfl⟩
    exact ⟨⟨(f, a), hfa, rfl, List.mem_toFinset.mp hr⟩, rfl⟩

/-- The in-edges of `f` are exactly the nodes whose imports resolve to
`f`, paired with `f`. -/
theorem edges_to_eq (m : AnalysisMap) (f : Str) :
    (graphEdges m).filter (fun e => e.2 = f) =
      ((graphNodes m).filter (fun g => importsResolveTo m g f = true)).image
        (fun g => (g, f)) := by
  ext e
  rw [Finset.mem_filter, mem_graphEdges, Finset.mem_image]
  constructor
  · rintro ⟨⟨p, hp, h1, h2⟩, hf⟩
    refine ⟨e.1, Finset.mem_filter.mpr ⟨?_, ?_⟩, ?_⟩
    · unfold graphNodes mapKeys
      exact List.mem_toFinset.mpr (h1 ▸ List.mem_map.mpr ⟨p, hp, rfl⟩)
    · unfold importsResolveTo
      rw [List.any_eq_true]
      refine ⟨p, hp, ?_⟩
      rw [Bool.and_eq_true]
      exact ⟨by rw [h1]; exact beq_self_eq_true _,
             List.elem_eq_true_of_mem (hf ▸ h2)⟩
    · cases e; simp_all
  · rintro ⟨g, hg, rfl⟩
    rcases Finset.mem_filter.mp hg with ⟨-, hres⟩
    unfold importsResolveTo at hres
    rcases List.any_eq_true.mp hres with ⟨p, hp, hcond⟩
    rw [Bool.and_eq_true] at hcond
    refine ⟨⟨p, hp, ?_, ?_⟩, rfl⟩
    · exact (beq_iff_eq.mp hcond.1).symm
    · exact List.mem_of_elem_eq_true hcond.2

/-- Pairing with a fixed first component is injective. -/
theorem pair_left_injective (f : Str) :
    Function.Injective (fun r : Str => (f, r)) := by
  intro x y hxy
  simpa using congrArg Prod.snd hxy

/-- Pairing with a fixed second component is injective. -/
theorem pair_right_injective (f : Str) :
    Function.Injective (fun g : Str => (g, f)) := by
  intro x y hxy
  simpa using congrArg Prod.fst hxy

/-- C1 (amended): `dependency_count` is the number of distinct
resolved-import targets; `dependent_count` is the number of nodes — the
file itself included, via a self-import — with an import resolving to
the file; each degree sum equals the edge count. -/
theorem dependency_graph_degree_invariants (m : AnalysisMap)
    (hnd : (m.map Prod.fst).Nodup) (f : Str) (a : FileAnalysisE)
    (hfa : (f, a) ∈ m) :
    dependencyCount m f = (resolvedTargets (mapKeys m) a).toFinset.card ∧
    dependentCount m f =
      ((graphNodes m).filter (fun g => importsResolveTo m g f = true)).card ∧
    (∑ g ∈ graphNodes m, dependencyCount m g) = (graphEdges m).card ∧
    (∑ g ∈ graphNodes m, dependentCount m g) = (graphEdges m).card := by
  refine ⟨?_, ?_, ?_, ?_⟩
  · unfold dependencyCount
    rw [edges_from_eq hnd hfa,
      Finset.card_image_of_injective _ (pair_left_injective f)]
  · unfold dependentCount
    rw [edges_to_eq m f,
      Finset.card_image_of_injective _ (pair_right_injective f)]
  · exact (Finset.card_eq_sum_card_fiberwise
      (fun e he => edge_fst_mem he)).symm
  · exact (Finset.card_eq_sum_card_fiberwise
      (fun e he => edge_snd_mem he)).symm

/-- A two-file map: `main.py` imports `simple`, which resolves to
`simple.py`. -/
def depWitnessMap : AnalysisMap :=
  [("main.py".toList, ⟨["simple".toList], []⟩),
   ("simple.py".toList, ⟨[], []⟩)]

/-- Witness for C1 on the concrete two-file map. -/
theorem dependency_graph_degree_invariants_witness :
    dependencyCount depWitnessMap "main.py".toList =
      (resolvedTargets (mapKeys depWitnessMap)
        ⟨["simple".toList], []⟩).toFinset.card ∧
    dependentCount depWitnessMap "main.py".toList =
      ((graphNodes depWitnessMap).filter
        (fun g => importsResolveTo depWitnessMap g "main.py".toList = true)).card ∧
    (∑ g ∈ graphNodes depWitnessMap, dependencyCount depWitnessMap g) =
      (graphEdges depWitnessMap).card ∧
    (∑ g ∈ graphNodes depWitnessMap, dependentCount depWitnessMap g) =
      (graphEdges depWitnessMap).card :=
  dependency_graph_degree_invariants depWitnessMap (by decide)
    "main.py".toList ⟨["simple".toList], []⟩ (by decide)

/-- A single file importing itself: `a.py` contains `import a`, which
resolves to `a.py`, producing a self-loop. -/
def selfImportMap : AnalysisMap :=
  [("a.py".toList, ⟨["a".toList], []⟩)]

/-- C1 counterexample: with a self-import, `dependent_count` is 1 (the
in-degree counts the self-loop) while the number of *other* nodes whose
imports resolve to `a.py` is 0. -/
theorem dependent_count_self_loop_counterexample :
    dependentCount selfImportMap "a.py".toList = 1 ∧
    ((graphNodes selfImportMap).filter
      (fun g => g ≠ "a.py".toList ∧
        importsResolveTo selfImportMap g "a.py".toList = true)).card = 0 := by
  decide

/-- C10: the node set of the built graph is exactly the key set of the
supplied file-analysis map, and both endpoints of every edge are nodes —
an import becomes an edge only when its resolved target is an analyzed
file. -/
theorem graph_closed_over_input (m : AnalysisMap) :
    graphNodes m = (m.map Prod.fst).toFinset ∧
    ∀ e ∈ graphEdges m, e.1 ∈ graphNodes m ∧ e.2 ∈ graphNodes m :=
  ⟨rfl, fun _ he => ⟨edge_fst_mem he, edge_snd_mem he⟩⟩

/-- Witness for C10 on the concrete two-file map. -/
theorem graph_closed_over_input_witness :
    ("main.py".toList, "simple.py".toList) ∈ graphEdges depWitnessMap ∧
    ("main.py".toList, "simple.py".toList).1 ∈ graphNodes depWitnessMap ∧
    ("main.py".toList, "simple.py".toList).2 ∈ graphNodes depWitnessMap :=
  ⟨by decide, (graph_closed_over_input depWitnessMap).2 _ (by decide)⟩

/-- C2: `_resolve_import` tries the Python-style candidate first, then —
only for relative-prefixed imports — the `.js` and `.ts` candidates, in
that order; the first candidate among the known file paths wins; the
result is always either a known file path or the empty string, and
an unresolved import contributes no edge and raises no error (the
function is total). -/
theorem resolve_import_strategy_order :
    (∀ imp avail,
      resolveImport imp avail =
        (if pythonPathOf imp ∈ avail then pythonPathOf imp
         else if isRelativeImport imp = true ∧ jsPathOf imp ∈ avail then
           jsPathOf imp
         else if isRelativeImport imp = true ∧ tsPathOf imp ∈ avail then
           tsPathOf imp
         else []) ∧
      (resolveImport imp avail = [] ∨ resolveImport imp avail ∈ avail)) ∧
    ∀ (m : AnalysisMap) (e : Str × Str), e ∈ graphEdges m →
      e.2 ≠ [] ∧ e.2 ∈ mapKeys m := by
  constructor
  · intro imp avail
    have hmain : resolveImport imp avail =
        (if pythonPathOf imp ∈ avail then pythonPathOf imp
         else if isRelativeImport imp = true ∧ jsPathOf imp ∈ avail then
           jsPathOf imp
         else if isRelativeImport imp = true ∧ tsPathOf imp ∈ avail then
           tsPathOf imp
         else []) := by
      unfold resolveImport
      cases hrel : isRelativeImport imp <;>
        by_cases hpy : pythonPathOf imp ∈ avail <;>
        by_cases hjs : jsPathOf imp ∈ avail <;>
        by_cases hts : tsPathOf imp ∈ avail <;>
        simp [List.find?, hrel, hpy, hjs, hts]
    refine ⟨hmain, ?_⟩
    rw [hmain]
    split_ifs with h1 h2 h3
    · exact Or.inr h1
    · exact Or.inr h2.2
    · exact Or.inr h3.2
    · exact Or.inl rfl
  · intro m e he
    rcases mem_graphEdges.mp he with ⟨p, -, -, h2⟩
    exact resolvedTargets_sound h2

/-- Witness for C2: the edge of the two-file map has a nonempty resolved
target that is a key. -/
theorem resolve_import_strategy_order_witness :
    ("main.py".toList, "simple.py".toList) ∈ graphEdges depWitnessMap ∧
    ("main.py".toList, "simple.py".toList).2 ≠ [] ∧
    ("main.py".toList, "simple.py".toList).2 ∈ mapKeys depWitnessMap :=
  ⟨by decide, resolve_import_strategy_order.2 depWitnessMap _ (by decide)⟩

/-- Embeds `DependencyAnalyzer.get_module_importance_score` (lines 249-275).
The `networkx.betweenness_centrality` call is external; its outcome is
the oracle argument: `some c` when the computation succeeds (`c` is the
centrality table, a total map like `dict.get(·, 0)`), `none` when it
raises. -/
def importanceScore (m : AnalysisMap) (centrality : Option (Str → ℚ))
    (f : Str) : ℚ :=
  if f ∉ graphNodes m then 0
  else
    match centrality with
    | some c => min (c f * 50 + min ((dependentCount m f : ℚ) * 5) 50) 100
    | none => (dependentCount m f : ℚ) * 10

/-- C7: for a node, the importance score is
`min(100, centrality*50 + min(dependent_count*5, 50))` on success and the
uncapped `dependent_count * 10` on centrality failure; for a non-node it
is 0. -/
theorem module_importance_score_eq (m : AnalysisMap)
    (cent : Option (Str → ℚ)) (f : Str) :
    (f ∉ graphNodes m → importanceScore m cent f = 0) ∧
    (f ∈ graphNodes m →
      (∀ c, cent = some c →
        importanceScore m cent f =
          min 100 (c f * 50 + min ((dependentCount m f : ℚ) * 5) 50)) ∧
      (cent = none →
        importanceScore m cent f = (dependentCount m f : ℚ) * 10)) := by
  constructor
  · intro hout
    unfold importanceScore
    rw [if_pos hout]
  · intro hin
    constructor
    · intro c hc
      subst hc
      unfold importanceScore
      rw [if_neg (by simpa using hin)]
      exact min_comm _ _
    · intro hc
      unfold importanceScore
      rw [if_neg (by simpa using hin), hc]

/-- Twelve files: `b01.py` … `b11.py` each import `a`, resolving to
`a.py`, so `a.py` has 11 dependents. -/
def manyDependentsMap : AnalysisMap :=
  ("a.py".toList, ⟨[], []⟩) ::
  (["b01".toList, "b02".toList, "b03".toList, "b04".toList, "b05".toList,
    "b06".toList, "b07".toList, "b08".toList, "b09".toList, "b10".toList,
    "b11".toList].map fun b => (b ++ ".py".toList, ⟨["a".toList], []⟩))

/-- Witness for C7: on centrality failure the fallback is uncapped —
with 11 dependents the score is 110, above the 100 cap. -/
theorem module_importance_score_eq_witness :
    "a.py".toList ∈ graphNodes manyDependentsMap ∧
    importanceScore manyDependentsMap none "a.py".toList =
      (dependentCount manyDependentsMap "a.py".toList : ℚ) * 10 ∧
    importanceScore manyDependentsMap none "a.py".toList = 110 := by
  have hmem : "a.py".toList ∈ graphNodes manyDependentsMap := by decide
  have h := ((module_importance_score_eq manyDependentsMap none
    "a.py".toList).2 hmem).2 rfl
  refine ⟨hmem, h, ?_⟩
  rw [h, show dependentCount manyDependentsMap "a.py".toList = 11 from by decide]
  norm_num

/-!
## Keyword relevance (`learning_path_tool.py`, `entry_point_tool.py`)

`LearningPathTool._find_relevant_files` receives the lowercased query,
splits it on whitespace, and keeps a file iff any keyword is a substring
of the lowercased path — no stop-word filtering and no symbol check.
`EntryPointTool._extract_keywords` splits the lowercased task text and
keeps `w.strip(",.!?")` for the words that are not stop words and have
length > 2; `_run` gives a file 10 points per keyword occurring in the
lowercased path and 5 per (symbol, keyword) substring pair, and selects
the file iff this base score is positive.
-/

/-- The `stop_words` set of `EntryPointTool._extract_keywords`. -/
def stopWords : List Str :=
  ["a", "an", "the", "to", "for", "in", "on", "at", "add", "create",
   "update", "fix", "implement", "new", "and", "or", "is", "are", "was",
   "were"].map String.toList

/-- Embeds `EntryPointTool._extract_keywords` (lines 137-173). -/
def extractKeywords (text : Str) : List Str :=
  ((pySplitWs text).filter fun w =>
      !stopWords.contains w && decide (2 < w.length)).map
    (stripCharsOf ",.!?".toList)

/-- Embeds `LearningPathTool._find_relevant_files` (lines 128-150). -/
def findRelevantFiles (area : Str) (fileKeys : List Str) : List Str :=
  let keywords := pySplitWs area
  fileKeys.filter fun fp => keywords.any fun k => isSubstr k (pyLower fp)

/-- The keyword score `EntryPointTool._run` accumulates before the
`if score > 0` test: 10 per keyword in the lowercased path, 5 per
(symbol, keyword) substring hit. -/
def entryScore (keywords : List Str) (filePath : Str)
    (symbolNames : List Str) : Nat :=
  10 * (keywords.countP fun k => isSubstr k (pyLower filePath)) +
  5 * ((symbolNames.map fun s =>
        keywords.countP fun k => isSubstr k (pyLower s)).sum)

example : extractKeywords "fix the payment, bug".toList
    = ["payment".toList, "bug".toList] := by decide

example : findRelevantFiles "auth".toList
    ["src/Auth.py".toList, "pay.py".toList] = ["src/Auth.py".toList] := by
  decide

/-- A sum of mapped naturals is positive iff some element maps to a
positive value. -/
theorem sum_map_pos_iff {α : Type} (l : List α) (g : α → Nat) :
    0 < (l.map g).sum ↔ ∃ x ∈ l, 0 < g x := by
  induction l with
  | nil => simp
  | cons x t ih =>
    rw [List.map_cons, List.sum_cons, add_pos_iff, ih]
    simp [List.mem_cons, or_and_right, exists_or]

/-- C5 (amended): the learning-path tool keeps a file iff some
whitespace-delimited keyword of the query — with no stop-word removal and
no symbol check — occurs in the lowercased path; the entry-point tool
selects a file iff some extracted keyword (stop words and words of length
≤ 2 removed, then stripped of `,.!?`) occurs in the lowercased path or in
some lowercased symbol name. -/
theorem relevance_keyword_matching :
    (∀ (area : Str) (fileKeys : List Str) (fp : Str),
      fp ∈ findRelevantFiles area fileKeys ↔
        fp ∈ fileKeys ∧ ∃ k ∈ pySplitWs area, isSubstr k (pyLower fp) = true) ∧
    (∀ (task : Str) (fp : Str) (symbolNames : List Str),
      0 < entryScore (extractKeywords task) fp symbolNames ↔
        ∃ k ∈ extractKeywords task, isSubstr k (pyLower fp) = true ∨
          ∃ s ∈ symbolNames, isSubstr k (pyLower s) = true) := by
  constructor
  · intro area fileKeys fp
    unfold findRelevantFiles
    rw [List.mem_filter, List.any_eq_true]
  · intro task fp symbolNames
    unfold entryScore
    have h10 : ∀ n : Nat, 0 < 10 * n ↔ 0 < n := fun n => by omega
    have h5 : ∀ n : Nat, 0 < 5 * n ↔ 0 < n := fun n => by omega
    rw [add_pos_iff, h10, h5, List.countP_pos_iff, sum_map_pos_iff]
    simp only [List.countP_pos_iff]
    constructor
    · rintro (⟨k, hk, hmatch⟩ | ⟨s, hs, k, hk, hmatch⟩)
      · exact ⟨k, hk, Or.inl hmatch⟩
      · exact ⟨k, hk, Or.inr ⟨s, hs, hmatch⟩⟩
    · rintro ⟨k, hk, hmatch | ⟨s, hs, hmatch⟩⟩
      · exact Or.inl ⟨k, hk, hmatch⟩
      · exact Or.inr ⟨s, hs, k, hk, hmatch⟩

/-- C5 counterexample: the query `"the"` consists of a single stop word,
so under the claimed stop-word-filtered matching no file is relevant;
the learning-path tool still selects `the_config.py`. -/
theorem relevance_stop_word_counterexample :
    "the_config.py".toList ∈
      findRelevantFiles "the".toList ["the_config.py".toList] ∧
    ((pySplitWs "the".toList).filter fun w => !stopWords.contains w) = [] := by
  decide

/-!
## Git analyzer (`code_archaeology/analyzers/git_analyzer.py`)

Construction checks that the repository path exists and contains a
`.git` directory, raising `ValueError` otherwise.  `_run_git_command`
invokes the external `git` binary; it is embedded as an oracle
`GitOracle` mapping the argument list to `some stdout` on success and
`none` when the subprocess fails (`CalledProcessError`), in which case
the method swallows the error and returns the empty string (after
`.strip()`).  Python `int(...)` calls, which can raise `ValueError`,
are embedded in `Except String`; `datetime` timestamps are the integer
seconds handed to `fromtimestamp` (`datetime.now()` is the `now`
parameter). -/

abbrev GitOracle := List Str → Option Str

/-- Embeds `GitAnalyzer.__init__` (lines 37-49). -/
def initGitAnalyzer (pathExists dotGitExists : Bool) : Except String Unit :=
  if !pathExists then Except.error "Repository path does not exist"
  else if !dotGitExists then Except.error "Not a git repository"
  else Except.ok ()

/-- Embeds `GitAnalyzer._run_git_command` (lines 51-70): stripped stdout on
success, the empty string on subprocess failure. -/
def runGitCommand (oracle : GitOracle) (args : List Str) : Str :=
  match oracle args with
  | some out => pyStrip out
  | none => []

/-- Decimal digits to a number. -/
def digitsToNat (ds : Str) : Nat :=
  ds.foldl (fun acc c => 10 * acc + (c.toNat - '0'.toNat)) 0

/-- Python `int(s)` on a decimal string: strips whitespace, accepts an
optional sign followed by digits, raises `ValueError` otherwise. -/
def pyInt (s : Str) : Except String Int :=
  match pyStrip s with
  | '-' :: ds =>
    if ds ≠ [] ∧ ds.all Char.isDigit then Except.ok (-(digitsToNat ds : Int))
    else Except.error "ValueError"
  | '+' :: ds =>
    if ds ≠ [] ∧ ds.all Char.isDigit then Except.ok (digitsToNat ds : Int)
    else Except.error "ValueError"
  | ds =>
    if ds ≠ [] ∧ ds.all Char.isDigit then Except.ok (digitsToNat ds : Int)
    else Except.error "ValueError"

deriving instance DecidableEq for Except

example : pyInt " 42 ".toList = Except.ok 42 := by decide
example : pyInt "-7".toList = Except.ok (-7) := by decide
example : pyInt "x1".toList = Except.error "ValueError" := by decide

/-- The `FileHistory` dataclass. -/
structure FileHistory where
  filePath : Str
  commitCount : Int
  authors : List Str
  lastModified : Int
  creationDate : Int
  churnScore : Int
deriving DecidableEq, Repr

/-- The `ContributorStats` dataclass. -/
structure ContributorStats where
  name : Str
  email : Str
  commitCount : Int
  filesTouched : Nat
  linesAdded : Int
  linesDeleted : Int
deriving DecidableEq, Repr

/-- Embeds `GitAnalyzer.get_file_history` (lines 72-124). -/
def getFileHistory (oracle : GitOracle) (filePath : Str) (now : Int) :
    Except String (Option FileHistory) := do
  let commitCountOutput := runGitCommand oracle
    ["rev-list".toList, "--count".toList, "HEAD".toList, "--".toList, filePath]
  if commitCountOutput = [] then
    return none
  let commitCount ← pyInt commitCountOutput
  let authorsOutput := runGitCommand oracle
    ["log".toList, "--format=%an".toList, "--".toList, filePath]
  let authors :=
    if authorsOutput ≠ [] then (splitOnCharL '\n' authorsOutput).eraseDups
    else []
  let lastModifiedOutput := runGitCommand oracle
    ["log".toList, "-1".toList, "--format=%ct".toList, "--".toList, filePath]
  let lastModified ←
    if lastModifiedOutput ≠ [] then pyInt lastModifiedOutput else pure now
  let creationOutput := runGitCommand oracle
    ["log".toList, "--diff-filter=A".toList, "--format=%ct".toList,
     "--".toList, filePath]
  let creationLines :=
    if creationOutput ≠ [] then splitOnCharL '\n' creationOutput else []
  let creationDate ←
    match creationLines.getLast? with
    | some lastLine => pyInt lastLine
    | none => pure lastModified
  return some ⟨filePath, commitCount, authors, lastModified, creationDate,
    commitCount⟩

/-- Stable-enough insertion used to model `list.sort(key=churn,
reverse=True)`. -/
def insertByChurn (x : FileHistory) : List FileHistory → List FileHistory
  | [] => [x]
  | y :: t =>
    if y.churnScore < x.churnScore then x :: y :: t else y :: insertByChurn x t

/-- Sort file histories by churn score, descending. -/
def sortByChurnDesc (l : List FileHistory) : List FileHistory :=
  l.foldr insertByChurn []

/-- Embeds `GitAnalyzer.get_hotspots` (lines 126-150). -/
def getHotspots (oracle : GitOracle) (limit : Nat) (now : Int) :
    Except String (List FileHistory) := do
  let filesOutput := runGitCommand oracle ["ls-files".toList]
  if filesOutput = [] then
    return []
  let files := splitOnCharL '\n' filesOutput
  let fileHistories ← files.foldlM (fun acc fp => do
    match ← getFileHistory oracle fp now with
    | some history => pure (acc ++ [history])
    | none => pure acc) []
  return (sortByChurnDesc fileHistories).take limit

/-- The numstat accumulation of `get_contributor_stats`: a blank or
short line is skipped; `-` counts as 0; a `ValueError` on the added
count drops the whole line, one on the deleted count keeps the added
part (the first `+=` has already run when the second raises). -/
def numstatStep (acc : Int × Int) (statLine : Str) : Int × Int :=
  if pyStrip statLine = [] then acc
  else
    match splitOnCharL '\t' statLine with
    | p0 :: p1 :: _ =>
      match (if p0 = "-".toList then Except.ok 0 else pyInt p0) with
      | Except.error _ => acc
      | Except.ok da =>
        match (if p1 = "-".toList then Except.ok 0 else pyInt p1) with
        | Except.error _ => (acc.1 + da, acc.2)
        | Except.ok db => (acc.1 + da, acc.2 + db)
    | _ => acc

/-- One iteration of the `get_contributor_stats` loop over the
`shortlog -sne HEAD` lines. -/
def contributorOfLine (oracle : GitOracle) (line : Str) :
    Except String (Option ContributorStats) := do
  if pyStrip line = [] then
    return none
  let parts := splitOnCharL '\t' (pyStrip line)
  if parts.length < 2 then
    return none
  let commitCount ← pyInt (parts.headD [])
  let authorInfo := parts.getD 1 []
  let name :=
    if authorInfo.contains '<' && authorInfo.contains '>' then
      pyStrip ((splitOnCharL '<' authorInfo).headD [])
    else authorInfo
  let email :=
    if authorInfo.contains '<' && authorInfo.contains '>' then
      pyStrip ((splitOnCharL '>' ((splitOnCharL '<' authorInfo).getD 1 [])).headD [])
    else []
  let filesOutput := runGitCommand oracle
    ["log".toList, "--author=".toList ++ email, "--name-only".toList,
     "--format=".toList]
  let filesTouched :=
    if filesOutput ≠ [] then (splitOnCharL '\n' filesOutput).eraseDups.length
    else 0
  let statsOutput := runGitCommand oracle
    ["log".toList, "--author=".toList ++ email, "--numstat".toList,
     "--format=".toList]
  let counts :=
    if statsOutput ≠ [] then
      (splitOnCharL '\n' statsOutput).foldl numstatStep (0, 0)
    else (0, 0)
  return some ⟨name, email, commitCount, filesTouched, counts.1, counts.2⟩

/-- Embeds `GitAnalyzer.get_contributor_stats` (lines 152-220). -/
def getContributorStats (oracle : GitOracle) :
    Except String (List ContributorStats) := do
  let authorsOutput := runGitCommand oracle
    ["shortlog".toList, "-sne".toList, "HEAD".toList]
  if authorsOutput = [] then
    return []
  (splitOnCharL '\n' authorsOutput).foldlM (fun acc line => do
    match ← contributorOfLine oracle line with
    | some c => pure (acc ++ [c])
    | none => pure acc) []

/-- Ordered-dict counter update: `file_counts[fp] = file_counts.get(fp, 0) + 1`. -/
def bumpCount : List (Str × Nat) → Str → List (Str × Nat)
  | [], fp => [(fp, 1)]
  | (k, v) :: t, fp =>
    if k = fp then (k, v + 1) :: t else (k, v) :: bumpCount t fp

/-- Embeds `GitAnalyzer.get_recent_activity` (lines 222-245). -/
def getRecentActivity (oracle : GitOracle) (days : Int) : List (Str × Nat) :=
  let output := runGitCommand oracle
    ["log".toList,
     ("--since=".toList ++ (toString days).toList ++ ".days.ago".toList),
     "--name-only".toList, "--format=".toList]
  if output = [] then []
  else
    (splitOnCharL '\n' output).foldl
      (fun counts fp => if pyStrip fp ≠ [] then bumpCount counts fp else counts)
      []

/-- Embeds `GitAnalyzer.is_actively_maintained` (lines 247-256). -/
def isActivelyMaintained (oracle : GitOracle) : Except String Bool := do
  let recentCommits := runGitCommand oracle
    ["rev-list".toList, "--count".toList, "HEAD".toList,
     "--since=90.days.ago".toList]
  if recentCommits ≠ [] then do
    let n ← pyInt recentCommits
    return decide (0 < n)
  else
    return false

/-- The oracle of a repository where every git subprocess call fails. -/
def failingOracle : GitOracle := fun _ => none

/-- C8: construction succeeds iff the path exists and is a git
repository; after construction, each history query absorbs VCS command
failure: with every git call failing, file history is `None`, hotspots,
contributor stats and recent activity are empty, and the maintenance
check is `False` — all returned normally, none raising. -/
theorem git_queries_absorb_failures :
    (∀ pathExists dotGitExists : Bool,
      initGitAnalyzer pathExists dotGitExists = Except.ok () ↔
        pathExists = true ∧ dotGitExists = true) ∧
    (∀ (oracle : GitOracle) (fp : Str) (now : Int),
      oracle ["rev-list".toList, "--count".toList, "HEAD".toList,
        "--".toList, fp] = none →
      getFileHistory oracle fp now = Except.ok none) ∧
    (∀ (fp : Str) (now : Int),
      getFileHistory failingOracle fp now = Except.ok none) ∧
    (∀ (limit : Nat) (now : Int),
      getHotspots failingOracle limit now = Except.ok []) ∧
    getContributorStats failingOracle = Except.ok [] ∧
    (∀ days : Int, getRecentActivity failingOracle days = []) ∧
    isActivelyMaintained failingOracle = Except.ok false := by
  refine ⟨by decide, ?_, fun fp now => rfl, fun limit now => rfl, rfl,
    fun days => rfl, rfl⟩
  intro oracle fp now h
  have h' : oracle [['r', 'e', 'v', '-', 'l', 'i', 's', 't'],
      ['-', '-', 'c', 'o', 'u', 'n', 't'], ['H', 'E', 'A', 'D'],
      ['-', '-'], fp] = none := h
  simp [getFileHistory, runGitCommand, h']
  rfl

/-- Witness for C8: the first command of the file-history query failing
under the all-failing oracle yields `Ok None` at a concrete file. -/
theorem git_queries_absorb_failures_witness :
    failingOracle ["rev-list".toList, "--count".toList, "HEAD".toList,
      "--".toList, "a.py".toList] = none ∧
    getFileHistory failingOracle "a.py".toList 0 = Except.ok none :=
  ⟨rfl, git_queries_absorb_failures.2.1 failingOracle "a.py".toList 0 rfl⟩
